import Mathlib

/-!
# Verification of the object-storage facade (`application` package)

A shallow embedding of the S3 facade in `application` (an `s3Service`
wrapping an AWS S3 client) together with the provider behaviour its
contract depends on.  Pure control flow of the Go methods is translated
directly; the provider side (the S3 service and the SDK transfer
manager, which are not part of this repository) is modelled from the
specification and marked as such in doc comments.

Conventions:
* object payloads are byte lists (`List Nat`);
* a provider call outcome is `Option S3Error` — `none` is success;
* the provider's visible state is an association list of buckets, each
  holding an association list of keys to payloads.
-/

namespace AwsSdkPlayground

/-- Object payloads: a byte sequence, each byte a `Nat`. -/
abbrev ObjectData := List Nat

/-- Object keys. -/
abbrev Key := String

/-- Errors a provider call can fail with.  `notFound` corresponds to the
`types.NotFound` API error (404-equivalent); `accessDenied` and
`bucketNotEmpty` are other API errors; `transport` stands for a failure
that is not an API error at all (e.g. a network failure, for which
`errors.As(err, &apiError)` is false in the Go code). -/
inductive S3Error where
  | notFound
  | accessDenied
  | bucketNotEmpty
  | transport
deriving DecidableEq, Repr

/-- The facade handle: `type s3Service struct { s3Client *s3.Client }`.
The client binding is opaque; we record it as a `Nat` tag. -/
structure s3Service where
  s3Client : Nat
deriving DecidableEq, Repr

/-- `NewClient` — the only writer of the facade state: it installs the
client built from the given options. -/
def NewClient (_service : s3Service) (options : Nat) : s3Service :=
  { s3Client := options }

/-- `BucketExists` (src/unnamed/part_000, lines 42-65): issues a
`HeadBucket` probe, whose outcome is `probe` (`none` on success).  The
Go code starts with `exists := true`; on a `types.NotFound` API error it
sets `exists = false` and `err = nil`; on any other error — another API
error or a non-API error — it leaves `exists` true and propagates
`err`. -/
def BucketExists (service : s3Service) (probe : Option S3Error) :
    s3Service × Bool × Option S3Error :=
  match probe with
  | none => (service, true, none)
  | some S3Error.notFound => (service, false, none)
  | some e => (service, true, some e)

/-- **C2**: `BucketExists` returns `false` with a nil error exactly when
the probe fails with `NotFound`; every other probe failure is propagated
as a non-nil error (with the two outcome shapes disjoint). -/
theorem bucketExists_distinguishes_notFound (service : s3Service)
    (probe : Option S3Error) :
    (((BucketExists service probe).2.1 = false ∧
        (BucketExists service probe).2.2 = none) ↔
      probe = some S3Error.notFound) ∧
    (∀ e : S3Error, probe = some e → e ≠ S3Error.notFound →
      (BucketExists service probe).2.2 = some e) := by
  constructor
  · cases probe with
    | none => simp [BucketExists]
    | some e => cases e <;> simp [BucketExists]
  · intro e hpe hne
    subst hpe
    cases e <;> simp_all [BucketExists]

/-- Witness for C2 at concrete probes: an access-denied probe yields a
propagated error, and the iff holds at the `NotFound` probe. -/
theorem bucketExists_distinguishes_notFound_witness :
    (BucketExists ⟨0⟩ (some S3Error.accessDenied)).2.2 =
        some S3Error.accessDenied ∧
      ((BucketExists ⟨0⟩ (some S3Error.notFound)).2.1 = false ∧
        (BucketExists ⟨0⟩ (some S3Error.notFound)).2.2 = none) :=
  ⟨(bucketExists_distinguishes_notFound ⟨0⟩ (some S3Error.accessDenied)).2
      S3Error.accessDenied rfl (by decide),
    ((bucketExists_distinguishes_notFound ⟨0⟩ (some S3Error.notFound)).1).mpr
      rfl⟩

/-- **C9**: on any `HeadBucket` failure other than `NotFound`,
`BucketExists` returns the pair `(true, non-nil error)`: the boolean
stays at its initial value `true` even though existence was not
confirmed. -/
theorem bucketExists_true_on_other_failure (service : s3Service)
    (e : S3Error) (h : e ≠ S3Error.notFound) :
    (BucketExists service (some e)).2 = (true, some e) := by
  cases e <;> simp_all [BucketExists]

/-- Witness for C9 at the access-denied probe. -/
theorem bucketExists_true_on_other_failure_witness :
    (BucketExists ⟨0⟩ (some S3Error.accessDenied)).2 =
      (true, some S3Error.accessDenied) :=
  bucketExists_true_on_other_failure ⟨0⟩ S3Error.accessDenied (by decide)

/-! ## Provider state and the paginated object listing -/

/-- The provider's visible state: buckets by name, each an association
list from keys to payloads.  Modelled from the spec's data model
(buckets identified by name, objects by `(bucket, key)`). -/
structure S3State where
  buckets : List (String × List (Key × ObjectData))
deriving DecidableEq, Repr

/-- The objects of a bucket, `none` when the bucket does not exist. -/
def S3State.findBucket (s : S3State) (b : String) :
    Option (List (Key × ObjectData)) :=
  (s.buckets.find? (fun p => p.1 = b)).map Prod.snd

/-- The payload stored under `(b, k)`, `none` when absent. -/
def S3State.getObject (s : S3State) (b : String) (k : Key) :
    Option ObjectData :=
  (s.findBucket b).bind fun objs =>
    (objs.find? (fun p => p.1 = k)).map Prod.snd

/-- One page of the provider's `ListObjectsV2` call.  Modelled from the
spec: the provider returns at most one page of keys and a continuation
token when more remain. -/
structure ListObjectsV2Output where
  contents : List Key
  nextContinuationToken : Option Nat
deriving DecidableEq, Repr

/-- Modelled from the spec: the provider's paginated listing.  `objects`
is the bucket's full key sequence, `pageSize` the provider page size,
`token` the continuation token (an offset; `none` starts at the
beginning).  The page holds the next `pageSize` keys; a token is
returned exactly when keys remain beyond the page. -/
def listObjectsV2 (objects : List Key) (pageSize : Nat) (token : Option Nat) :
    ListObjectsV2Output :=
  let start := token.getD 0
  { contents := (objects.drop start).take pageSize
    nextContinuationToken :=
      if start + pageSize < objects.length then some (start + pageSize)
      else none }

/-- `ListObjects` (src/unnamed/part_000, lines 183-194): a single
`ListObjectsV2` call on the bucket with no continuation token; on
success it returns that call's `Contents` and nothing more — there is no
pagination loop in the Go code. -/
def ListObjects (service : s3Service) (objects : List Key) (pageSize : Nat) :
    s3Service × List Key × Option S3Error :=
  (service, (listObjectsV2 objects pageSize none).contents, none)

/-- **C1, counterexample**: a bucket holding keys `a, b` with a provider
page size of 1: the provider's first page carries a continuation token,
yet `ListObjects` returns only `[a]` — not the full set `[a, b]` — so
the facade does not loop until exhaustion. -/
theorem listObjects_drops_second_page :
    (listObjectsV2 ["a", "b"] 1 none).nextContinuationToken = some 1 ∧
      (ListObjects ⟨0⟩ ["a", "b"] 1).2.1 = ["a"] ∧
      (ListObjects ⟨0⟩ ["a", "b"] 1).2.1 ≠ ["a", "b"] := by
  decide

/-- **C1, amended**: `ListObjects` returns exactly the first provider
page (the first `pageSize` keys); whenever the bucket holds more keys
than one page, the result omits the rest and differs from the full key
sequence. -/
theorem listObjects_first_page_only (service : s3Service)
    (objects : List Key) (pageSize : Nat) :
    (ListObjects service objects pageSize).2.1 = objects.take pageSize ∧
      (pageSize < objects.length →
        (ListObjects service objects pageSize).2.1 ≠ objects) := by
  refine ⟨by simp [ListObjects, listObjectsV2], fun h hc => ?_⟩
  have hlen : (objects.take pageSize).length = pageSize :=
    List.length_take_of_le (Nat.le_of_lt h)
  rw [ListObjects] at hc
  simp only [listObjectsV2, List.drop_zero, Option.getD_none] at hc
  rw [hc] at hlen
  omega

/-- Witness for C1's amended theorem: page size 1 over a two-key bucket
returns `[a]`, which differs from the full sequence. -/
theorem listObjects_first_page_only_witness :
    (ListObjects ⟨0⟩ ["a", "b"] 1).2.1 = (["a", "b"] : List Key).take 1 ∧
      (ListObjects ⟨0⟩ ["a", "b"] 1).2.1 ≠ ["a", "b"] :=
  ⟨(listObjects_first_page_only ⟨0⟩ ["a", "b"] 1).1,
    (listObjects_first_page_only ⟨0⟩ ["a", "b"] 1).2 (by decide)⟩

/-! ## `DownloadFile` and the body-read error -/

/-- `io.ReadAll` on the object body: on success the whole body and no
error; when the read fails after `n` bytes it returns the bytes read so
far together with the error — exactly `io.ReadAll`'s contract of
returning the data read up to the error. -/
def readAll (body : ObjectData) (failAfter : Option Nat) :
    ObjectData × Option S3Error :=
  match failAfter with
  | none => (body, none)
  | some n => (body.take n, some S3Error.transport)

/-- `DownloadFile` (src/unnamed/part_000, lines 124-146), translated
line by line.  `getErr` is the `GetObject` outcome, `body` the object's
byte stream, `failAfter` injects a body-read failure, `createErr` the
`os.Create` outcome and `writeErr` the `file.Write` outcome.  The result
pairs the destination file's final contents (`none` when never created)
with the returned error.  Note the Go code binds
`body, err := io.ReadAll(...)`, only logs that `err`, and then
overwrites it with `_, err = file.Write(body)` before `return err`. -/
def DownloadFile (service : s3Service) (getErr : Option S3Error)
    (body : ObjectData) (failAfter : Option Nat)
    (createErr : Option S3Error) (writeErr : Option S3Error) :
    s3Service × Option ObjectData × Option S3Error :=
  match getErr with
  | some e => (service, none, some e)
  | none =>
    match createErr with
    | some e => (service, none, some e)
    | none =>
      let read := readAll body failAfter
      (service, some read.1, writeErr)

/-- **C3**: evaluating `DownloadFile` at the failing input — a 4-byte
object whose body read fails after 2 bytes, with file creation and the
write of the partial body succeeding — shows the code writing the
partial body `[1, 2]` to the file and returning a nil error, silent
partial success: the read error was overwritten by the write's nil
error instead of being returned. -/
theorem downloadFile_silent_partial_body :
    (readAll [1, 2, 3, 4] (some 2)).2 = some S3Error.transport ∧
      DownloadFile ⟨0⟩ none [1, 2, 3, 4] (some 2) none none =
        (⟨0⟩, some [1, 2], none) ∧
      some [1, 2] ≠ some ([1, 2, 3, 4] : ObjectData) := by
  decide

/-! ## Multipart upload: part splitting -/

/-- Modelled from the spec: the transfer manager splits the source into
sequential parts of the given part size (the degenerate part size 0,
which the SDK rejects, is taken as a single part).  An empty source
yields no parts. -/
def splitParts : Nat → ObjectData → List ObjectData
  | _, [] => []
  | 0, src => [src]
  | n + 1, b :: rest =>
      (b :: rest).take (n + 1) :: splitParts (n + 1) ((b :: rest).drop (n + 1))
termination_by _ src => src.length
decreasing_by
  simp only [List.length_drop, List.length_cons]
  omega

/-- The parts concatenate back to the source, in order. -/
theorem splitParts_flatten (n : Nat) (src : ObjectData) :
    (splitParts n src).flatten = src := by
  induction n, src using splitParts.induct with
  | case1 _ => simp [splitParts]
  | case2 src h => simp [splitParts]
  | case3 n b rest ih =>
      simp only [splitParts, List.flatten_cons, ih, List.take_append_drop]

/-- The `i`-th part is exactly the source bytes from offset
`partSize * i`, `partSize` of them (fewer only at the end): the split is
sequential with the configured part size. -/
theorem splitParts_getElem (n : Nat) (src : ObjectData) (i : Nat)
    (h : i < (splitParts (n + 1) src).length) :
    (splitParts (n + 1) src)[i] = (src.drop ((n + 1) * i)).take (n + 1) := by
  induction i generalizing src with
  | zero =>
      cases src with
      | nil => simp [splitParts] at h
      | cons b rest => simp [splitParts]
  | succ j ih =>
      cases src with
      | nil => simp [splitParts] at h
      | cons b rest =>
          have hlen : j < (splitParts (n + 1) ((b :: rest).drop (n + 1))).length := by
            simpa [splitParts] using h
          calc (splitParts (n + 1) (b :: rest))[j + 1]
              = (splitParts (n + 1) ((b :: rest).drop (n + 1)))[j] := by
                simp [splitParts]
            _ = (((b :: rest).drop (n + 1)).drop ((n + 1) * j)).take (n + 1) :=
                ih _ hlen
            _ = ((b :: rest).drop ((n + 1) * (j + 1))).take (n + 1) := by
                rw [List.drop_drop]
                congr 2
                ring

/-- A multipart upload part: a 1-based part number and its bytes. -/
structure Part where
  partNumber : Nat
  data : ObjectData
deriving DecidableEq, Repr

/-- The model per-part checksum: a fold over the part's bytes. -/
def checksum (d : ObjectData) : Nat :=
  d.foldl (fun a b => a * 257 + b + 1) 7

/-- The parts of a source: the sequential split, numbered from 1 in
order. -/
def mkParts (partSize : Nat) (src : ObjectData) : List Part :=
  (splitParts partSize src).enum.map fun p =>
    { partNumber := p.1 + 1, data := p.2 }

/-- The part payloads, in part-number order, are the sequential split. -/
theorem mkParts_map_data (partSize : Nat) (src : ObjectData) :
    (mkParts partSize src).map Part.data = splitParts partSize src := by
  simp only [mkParts, List.map_map]
  exact List.enum_map_snd (splitParts partSize src)

/-- The part numbers are `1, 2, ...` in order. -/
theorem mkParts_map_partNumber (partSize : Nat) (src : ObjectData) :
    (mkParts partSize src).map Part.partNumber =
      (List.range (splitParts partSize src).length).map (· + 1) := by
  simp only [mkParts, List.map_map]
  have h1 : ((splitParts partSize src).enum.map fun p => p.1 + 1) =
      (splitParts partSize src).enum.map ((· + 1) ∘ Prod.fst) := rfl
  calc ((splitParts partSize src).enum.map (Part.partNumber ∘ fun p =>
          ({ partNumber := p.1 + 1, data := p.2 } : Part)))
      = (splitParts partSize src).enum.map ((· + 1) ∘ Prod.fst) := rfl
    _ = ((splitParts partSize src).enum.map Prod.fst).map (· + 1) := by
        rw [List.map_map]
    _ = (List.range (splitParts partSize src).length).map (· + 1) := by
        rw [List.enum_map_fst]

/-- The part numbers are strictly increasing along the part list. -/
theorem mkParts_partNumber_sorted (partSize : Nat) (src : ObjectData) :
    List.Pairwise (· < ·) ((mkParts partSize src).map Part.partNumber) := by
  rw [mkParts_map_partNumber]
  have := List.pairwise_lt_range (splitParts partSize src).length
  exact List.Pairwise.map _ (fun a b hab => by omega) this

/-! ## Multipart upload: the completion manifest -/

/-- Modelled from the spec: parts complete in an arbitrary order
(`order` lists part numbers in completion order); each completed part's
`(partNumber, checksum)` is collected as it completes. -/
def collectCompleted (parts : List Part) (order : List Nat) :
    List (Nat × Nat) :=
  order.filterMap fun i =>
    (parts.find? fun p => p.partNumber = i).map fun p =>
      (p.partNumber, checksum p.data)

/-- Modelled from the spec: the session is completed with the part
manifest ordered by ascending part number — the collected checksums
sorted by part number. -/
def completionManifest (parts : List Part) (order : List Nat) :
    List (Nat × Nat) :=
  (collectCompleted parts order).mergeSort fun a b => a.1 ≤ b.1

theorem collectCompleted_cons_of_not_mem (p : Part) (parts : List Part)
    (order : List Nat) (h : ∀ i ∈ order, i ≠ p.partNumber) :
    collectCompleted (p :: parts) order = collectCompleted parts order := by
  induction order with
  | nil => rfl
  | cons i rest ih =>
      have hi : i ≠ p.partNumber := h i (List.mem_cons_self i rest)
      have hrest : ∀ j ∈ rest, j ≠ p.partNumber := fun j hj =>
        h j (List.mem_cons_of_mem _ hj)
      have hfind : (p :: parts).find? (fun q => q.partNumber = i) =
          parts.find? fun q => q.partNumber = i := by
        refine List.find?_cons_of_neg _ ?_
        simp [Ne.symm hi]
      simp only [collectCompleted, List.filterMap_cons, hfind] at *
      rw [ih hrest]

/-- Collecting over the full part-number sequence, for distinct part
numbers, yields each part's `(partNumber, checksum)` in part order. -/
theorem collectCompleted_all (parts : List Part)
    (hnd : (parts.map Part.partNumber).Nodup) :
    collectCompleted parts (parts.map Part.partNumber) =
      parts.map fun p => (p.partNumber, checksum p.data) := by
  induction parts with
  | nil => rfl
  | cons p rest ih =>
      rw [List.map_cons, List.nodup_cons] at hnd
      obtain ⟨hp, hrest⟩ := hnd
      have hfind : (p :: rest).find? (fun q => q.partNumber = p.partNumber) =
          some p := List.find?_cons_of_pos _ (by simp)
      have hne : ∀ i ∈ rest.map Part.partNumber, i ≠ p.partNumber := by
        intro i hi hip
        exact hp (hip ▸ hi)
      have htail : collectCompleted (p :: rest) (rest.map Part.partNumber) =
          collectCompleted rest (rest.map Part.partNumber) :=
        collectCompleted_cons_of_not_mem p rest _ hne
      calc collectCompleted (p :: rest) (p.partNumber :: rest.map Part.partNumber)
          = (p.partNumber, checksum p.data) ::
              collectCompleted (p :: rest) (rest.map Part.partNumber) := by
            simp [collectCompleted, List.filterMap_cons, hfind]
        _ = (p.partNumber, checksum p.data) ::
              collectCompleted rest (rest.map Part.partNumber) := by rw [htail]
        _ = (p.partNumber, checksum p.data) ::
              rest.map (fun p => (p.partNumber, checksum p.data)) := by
            rw [ih hrest]
        _ = (p :: rest).map fun p => (p.partNumber, checksum p.data) := rfl

/-- Strict comparison on first components is (vacuously) antisymmetric. -/
instance instIsAntisymmFstLt :
    IsAntisymm (Nat × Nat) (fun a b => a.1 < b.1) :=
  ⟨fun _ _ h1 h2 => (Nat.lt_irrefl _ (Nat.lt_trans h1 h2)).elim⟩

/-- Sorting a permutation of the in-order manifest reproduces it: for
distinct, strictly increasing part numbers, the completion manifest does
not depend on the completion order `order` and equals the in-order
manifest. -/
theorem completionManifest_eq_inorder (parts : List Part) (order : List Nat)
    (hsorted : List.Pairwise (· < ·) (parts.map Part.partNumber))
    (hperm : order.Perm (parts.map Part.partNumber)) :
    completionManifest parts order =
      parts.map fun p => (p.partNumber, checksum p.data) := by
  have hnd : (parts.map Part.partNumber).Nodup :=
    List.Pairwise.imp (fun h => Nat.ne_of_lt h) hsorted
  have hcoll : (collectCompleted parts order).Perm
      (collectCompleted parts (parts.map Part.partNumber)) :=
    List.Perm.filterMap _ hperm
  rw [collectCompleted_all parts hnd] at hcoll
  have hmsperm : (completionManifest parts order).Perm
      (parts.map fun p => (p.partNumber, checksum p.data)) :=
    ((collectCompleted parts order).mergeSort_perm
      (fun a b => decide (a.1 ≤ b.1))).trans hcoll
  have htargetSorted : List.Pairwise (fun a b : Nat × Nat => a.1 < b.1)
      (parts.map fun p => (p.partNumber, checksum p.data)) := by
    rw [List.pairwise_map]
    exact List.pairwise_map.mp hsorted
  have hmsLe : List.Pairwise (fun a b : Nat × Nat => a.1 ≤ b.1)
      (completionManifest parts order) := by
    have := @List.sorted_mergeSort (Nat × Nat)
      (fun a b => decide (a.1 ≤ b.1))
      (fun a b c hab hbc => by
        simp only [decide_eq_true_eq] at *
        omega)
      (fun a b => by
        simp only [Bool.or_eq_true, decide_eq_true_eq]
        omega)
      (collectCompleted parts order)
    exact this.imp fun h => by simpa using h
  have hmsNodupFst : ((completionManifest parts order).map Prod.fst).Nodup := by
    have hpermFst : ((completionManifest parts order).map Prod.fst).Perm
        ((parts.map fun p => (p.partNumber, checksum p.data)).map Prod.fst) :=
      List.Perm.map _ hmsperm
    have htargetNd : ((parts.map fun p => (p.partNumber, checksum p.data)).map
        Prod.fst).Nodup := by
      simpa [List.map_map, Function.comp] using hnd
    exact (List.Perm.nodup_iff hpermFst).mpr htargetNd
  have hmsNe : List.Pairwise (fun a b : Nat × Nat => a.1 ≠ b.1)
      (completionManifest parts order) :=
    (List.pairwise_map).mp hmsNodupFst
  have hmsLt : List.Pairwise (fun a b : Nat × Nat => a.1 < b.1)
      (completionManifest parts order) :=
    (hmsLe.and hmsNe).imp fun h => Nat.lt_of_le_of_ne h.1 h.2
  exact List.eq_of_perm_of_sorted hmsperm hmsLt htargetSorted

/-! ## Provider state updates -/

/-- Store `d` under key `k` in a bucket's association list, overwriting
an existing entry or appending a new one. -/
def setEntry (objs : List (Key × ObjectData)) (k : Key) (d : ObjectData) :
    List (Key × ObjectData) :=
  if objs.any fun p => p.1 = k then
    objs.map fun p => if p.1 = k then (k, d) else p
  else objs ++ [(k, d)]

/-- Store `d` under `(b, k)`, creating the bucket when absent.  Modelled
from the spec: a put creates or overwrites the object at its key. -/
def S3State.putObject (s : S3State) (b : String) (k : Key) (d : ObjectData) :
    S3State :=
  if s.buckets.any fun p => p.1 = b then
    { buckets := s.buckets.map fun p =>
        if p.1 = b then (b, setEntry p.2 k d) else p }
  else { buckets := s.buckets ++ [(b, [(k, d)])] }

theorem find?_eq_none_of_any_eq_false {α : Type} (p : α → Bool) (l : List α)
    (h : l.any p = false) : l.find? p = none := by
  induction l with
  | nil => rfl
  | cons a rest ih =>
      simp only [List.any_cons, Bool.or_eq_false_iff] at h
      rw [List.find?_cons_of_neg _ (by simp [h.1]), ih h.2]

theorem find?_map_update {α : Type} [DecidableEq α] {β : Type}
    (l : List (α × β)) (b : α) (f : β → β)
    (h : l.any (fun p => p.1 = b) = true) :
    (l.map fun p => if p.1 = b then (b, f p.2) else p).find?
        (fun p => p.1 = b) =
      (l.find? fun p => p.1 = b).map fun p => (b, f p.2) := by
  induction l with
  | nil => simp at h
  | cons a rest ih =>
      by_cases hab : a.1 = b
      · rw [List.map_cons, if_pos hab,
          List.find?_cons_of_pos _ (by simp),
          List.find?_cons_of_pos _ (by simp [hab])]
        rfl
      · rw [List.any_cons, Bool.or_eq_true] at h
        rcases h with h1 | h2
        · simp [hab] at h1
        · rw [List.map_cons, if_neg hab,
            List.find?_cons_of_neg _ (by simp [hab]),
            List.find?_cons_of_neg _ (by simp [hab]),
            ih h2]

theorem find?_map_update_other {α : Type} [DecidableEq α] {β : Type}
    (l : List (α × β)) (b b' : α) (f : β → β) (hne : b' ≠ b) :
    (l.map fun p => if p.1 = b then (b, f p.2) else p).find?
        (fun p => p.1 = b') =
      l.find? fun p => p.1 = b' := by
  induction l with
  | nil => rfl
  | cons a rest ih =>
      by_cases hab : a.1 = b
      · rw [List.map_cons, if_pos hab,
          List.find?_cons_of_neg _ (by simp [Ne.symm hne]),
          List.find?_cons_of_neg _ (by simp [hab, Ne.symm hne]), ih]
      · rw [List.map_cons, if_neg hab]
        by_cases hab' : a.1 = b'
        · rw [List.find?_cons_of_pos _ (by simp [hab']),
            List.find?_cons_of_pos _ (by simp [hab'])]
        · rw [List.find?_cons_of_neg _ (by simp [hab']),
            List.find?_cons_of_neg _ (by simp [hab']), ih]

/-- After a put, the bucket holds the updated association list. -/
theorem findBucket_putObject (s : S3State) (b : String) (k : Key)
    (d : ObjectData) :
    (s.putObject b k d).findBucket b =
      some (setEntry ((s.findBucket b).getD []) k d) := by
  by_cases h : s.buckets.any (fun p => p.1 = b) = true
  · rw [S3State.putObject, if_pos h]
    show (((s.buckets.map fun p => if p.1 = b then (b, setEntry p.2 k d)
        else p).find? fun p => p.1 = b).map Prod.snd) =
      some (setEntry ((s.findBucket b).getD []) k d)
    rw [find?_map_update s.buckets b (fun objs => setEntry objs k d) h]
    cases hf : s.buckets.find? fun p => p.1 = b with
    | none =>
        rcases List.any_eq_true.mp h with ⟨x, hx, hxb⟩
        have := List.find?_eq_none.mp hf x hx
        simp_all
    | some q =>
        have hq : q.1 = b := by
          have := List.find?_some hf
          simpa using this
        simp [S3State.findBucket, hf, hq]
  · rw [S3State.putObject, if_neg h]
    have hb : s.buckets.any (fun p => p.1 = b) = false :=
      Bool.eq_false_iff.mpr h
    have hfind : s.buckets.find? (fun p => p.1 = b) = none :=
      find?_eq_none_of_any_eq_false _ _ hb
    show (((s.buckets ++ [(b, [(k, d)])]).find? fun p => p.1 = b).map
        Prod.snd) = some (setEntry ((s.findBucket b).getD []) k d)
    rw [List.find?_append, hfind]
    have hsf : (s.findBucket b) = none := by
      simp [S3State.findBucket, hfind]
    simp [hsf, setEntry, List.find?_cons_of_pos]

/-- After a put, every other bucket is untouched. -/
theorem findBucket_putObject_other (s : S3State) (b b' : String) (k : Key)
    (d : ObjectData) (hne : b' ≠ b) :
    (s.putObject b k d).findBucket b' = s.findBucket b' := by
  by_cases h : s.buckets.any (fun p => p.1 = b) = true
  · rw [S3State.putObject, if_pos h]
    show (((s.buckets.map fun p => if p.1 = b then (b, setEntry p.2 k d)
        else p).find? fun p => p.1 = b').map Prod.snd) = s.findBucket b'
    rw [find?_map_update_other s.buckets b b'
      (fun objs => setEntry objs k d) hne]
    rfl
  · rw [S3State.putObject, if_neg h]
    show (((s.buckets ++ [(b, [(k, d)])]).find? fun p => p.1 = b').map
        Prod.snd) = s.findBucket b'
    rw [List.find?_append]
    have : ([((b : String), [((k : Key), d)])].find?
        (fun p => p.1 = b')) = none := by
      simp [Ne.symm hne]
    simp [this, S3State.findBucket]

/-- In an updated association list the stored entry is found. -/
theorem find?_setEntry (objs : List (Key × ObjectData)) (k : Key)
    (d : ObjectData) :
    (setEntry objs k d).find? (fun p => p.1 = k) = some (k, d) := by
  rw [setEntry]
  by_cases h : objs.any (fun p => p.1 = k) = true
  · rw [if_pos h]
    induction objs with
    | nil => simp at h
    | cons a rest ih =>
        by_cases hak : a.1 = k
        · rw [List.map_cons, if_pos hak, List.find?_cons_of_pos _ (by simp)]
        · rw [List.any_cons, Bool.or_eq_true] at h
          rcases h with h1 | h2
          · simp [hak] at h1
          · rw [List.map_cons, if_neg hak,
              List.find?_cons_of_neg _ (by simp [hak]), ih h2]
  · rw [if_neg h]
    have hb : objs.any (fun p => p.1 = k) = false := Bool.eq_false_iff.mpr h
    rw [List.find?_append, find?_eq_none_of_any_eq_false _ _ hb]
    simp

/-- After a put, reading `(b, k)` returns exactly the stored bytes. -/
theorem getObject_putObject (s : S3State) (b : String) (k : Key)
    (d : ObjectData) :
    (s.putObject b k d).getObject b k = some d := by
  rw [S3State.getObject, findBucket_putObject]
  simp [find?_setEntry]

/-! ## The multipart facade operations -/

/-- The multipart upload session's states, from the spec's state
machine: `Initiated -> PartsUploading -> { Completed | Aborted }`. -/
inductive SessionState where
  | initiated
  | partsUploading
  | completed
  | aborted
deriving DecidableEq, Repr

/-- `var partMiBs int64 = 10` in `UploadLargeObject` and
`DownloadLargeObject`. -/
def partMiBs : Nat := 10

/-- `u.PartSize = partMiBs * 1024 * 1024`: the configured part size. -/
def defaultPartSize : Nat := partMiBs * 1024 * 1024

/-- `UploadLargeObject` (src/unnamed/part_000, lines 104-121) splits the
source and delegates to the SDK upload manager, whose behaviour is
modelled from the spec: the source is split into sequential parts; on
any part failure (`failAt` injects the failing part number) the session
is aborted, no object is stored, and the failure is surfaced; otherwise
the session completes and the object assembled from the parts in
part-number order is stored under `(bucket, key)`. -/
def UploadLargeObject (service : s3Service) (state : S3State)
    (bucketName : String) (objectKey : Key) (partSize : Nat)
    (largeObject : ObjectData) (failAt : Option Nat) :
    s3Service × S3State × SessionState × Option S3Error :=
  let parts := mkParts partSize largeObject
  match failAt with
  | some j =>
      if parts.any fun p => p.partNumber = j then
        (service, state, SessionState.aborted, some S3Error.transport)
      else
        (service,
          state.putObject bucketName objectKey (parts.map Part.data).flatten,
          SessionState.completed, none)
  | none =>
      (service,
        state.putObject bucketName objectKey (parts.map Part.data).flatten,
        SessionState.completed, none)

/-- `DownloadLargeObject` (src/unnamed/part_000, lines 151-166)
delegates to the SDK download manager, modelled from the spec: ranged
reads of `partSize` bytes each, written to their offsets and returned as
one buffer; absent objects fail with `NotFound`. -/
def DownloadLargeObject (service : s3Service) (state : S3State)
    (bucketName : String) (objectKey : Key) (partSize : Nat) :
    s3Service × ObjectData × Option S3Error :=
  match state.getObject bucketName objectKey with
  | none => (service, [], some S3Error.notFound)
  | some data => (service, (splitParts partSize data).flatten, none)

/-- **C4**: a completed `UploadLargeObject` followed by a download of
the same `(bucket, key)` returns bytes identical to the source, for
every source (any size, 0 upward) and any state and part size. -/
theorem uploadLarge_download_roundtrip (service service' : s3Service)
    (state : S3State) (bucketName : String) (objectKey : Key)
    (partSize : Nat) (src : ObjectData) :
    (UploadLargeObject service state bucketName objectKey partSize src
        none).2.2.2 = none ∧
      (DownloadLargeObject service'
          (UploadLargeObject service state bucketName objectKey partSize src
            none).2.1
          bucketName objectKey partSize).2 = (src, none) := by
  refine ⟨rfl, ?_⟩
  have hstore :
      (UploadLargeObject service state bucketName objectKey partSize src
        none).2.1.getObject bucketName objectKey = some src := by
    show (state.putObject bucketName objectKey
        ((mkParts partSize src).map Part.data).flatten).getObject
        bucketName objectKey = some src
    rw [getObject_putObject, mkParts_map_data, splitParts_flatten]
  rw [DownloadLargeObject, hstore]
  simp [splitParts_flatten]

/-- **C5**: when some part of a multipart upload fails, the provider
state is left exactly as it was — in particular whatever was (or was
not) retrievable under the target key before is unchanged, so no
partial object appears — the session ends in the terminal `aborted`
state, and the error is surfaced to the caller. -/
theorem uploadLarge_part_failure_aborts (service : s3Service)
    (state : S3State) (bucketName : String) (objectKey : Key)
    (partSize : Nat) (src : ObjectData) (j : Nat)
    (hj : (mkParts partSize src).any (fun p => p.partNumber = j) = true) :
    UploadLargeObject service state bucketName objectKey partSize src
        (some j) =
      (service, state, SessionState.aborted, some S3Error.transport) ∧
      (UploadLargeObject service state bucketName objectKey partSize src
          (some j)).2.1.getObject bucketName objectKey =
        state.getObject bucketName objectKey := by
  refine ⟨?_, ?_⟩ <;> simp [UploadLargeObject, hj]

/-- Witness for C5: a 10-byte source with 2-byte parts gives 5 parts;
part 3 fails; from an initial state holding no object under the key,
the state is untouched, the key stays absent, and the session is
aborted with the error surfaced. -/
theorem uploadLarge_part_failure_aborts_witness :
    UploadLargeObject ⟨0⟩ ⟨[]⟩ "bkt" "key" 2 [1, 2, 3, 4, 5, 6, 7, 8, 9, 10]
        (some 3) =
      (⟨0⟩, ⟨[]⟩, SessionState.aborted, some S3Error.transport) :=
  (uploadLarge_part_failure_aborts ⟨0⟩ ⟨[]⟩ "bkt" "key" 2
    [1, 2, 3, 4, 5, 6, 7, 8, 9, 10] 3 (by
      unfold mkParts
      rw [show splitParts 2 [1, 2, 3, 4, 5, 6, 7, 8, 9, 10] =
        [[1, 2], [3, 4], [5, 6], [7, 8], [9, 10]] from by simp [splitParts]]
      decide)).1

/-- **C7**: the configured default part size is 10 MiB; the split is
sequential with parts of the configured size (the `i`-th part holds the
`partSize` source bytes from offset `partSize * i`); and for every
completion order of the parts, the completion manifest lists the part
checksums by ascending part number — it equals the in-order manifest,
whose part numbers are strictly increasing. -/
theorem uploadLarge_split_and_manifest_order (partSize : Nat)
    (src : ObjectData) (order : List Nat) (hpos : 0 < partSize)
    (hperm : order.Perm ((mkParts partSize src).map Part.partNumber)) :
    defaultPartSize = 10 * 1024 * 1024 ∧
      (∀ i, i < (splitParts partSize src).length →
        (splitParts partSize src).getD i [] =
          (src.drop (partSize * i)).take partSize) ∧
      completionManifest (mkParts partSize src) order =
        (mkParts partSize src).map (fun p => (p.partNumber, checksum p.data)) ∧
      List.Pairwise (· < ·)
        ((completionManifest (mkParts partSize src) order).map Prod.fst) := by
  obtain ⟨m, rfl⟩ : ∃ m, partSize = m + 1 :=
    ⟨partSize - 1, by omega⟩
  have hmani := completionManifest_eq_inorder (mkParts (m + 1) src) order
    (mkParts_partNumber_sorted (m + 1) src) hperm
  refine ⟨rfl, fun i h => ?_, hmani, ?_⟩
  · rw [List.getD_eq_getElem _ _ h]
    exact splitParts_getElem m src i h
  rw [hmani, List.map_map]
  have := mkParts_partNumber_sorted (m + 1) src
  rw [List.pairwise_map] at this ⊢
  exact this

/-- Witness for C7: 2-byte parts over a 5-byte source give parts
`1, 2, 3`; with completion order `3, 1, 2` the manifest still comes out
in ascending part order, the second part is bytes 3-4, and the default
part size is 10 MiB. -/
theorem uploadLarge_split_and_manifest_order_witness :
    defaultPartSize = 10 * 1024 * 1024 ∧
      (splitParts 2 [1, 2, 3, 4, 5]).getD 1 [] =
        (([1, 2, 3, 4, 5] : ObjectData).drop (2 * 1)).take 2 ∧
      completionManifest (mkParts 2 [1, 2, 3, 4, 5]) [3, 1, 2] =
        (mkParts 2 [1, 2, 3, 4, 5]).map
          fun p => (p.partNumber, checksum p.data) :=
  have h := uploadLarge_split_and_manifest_order 2 [1, 2, 3, 4, 5] [3, 1, 2]
    (by decide) (by
      unfold mkParts
      rw [show splitParts 2 [1, 2, 3, 4, 5] = [[1, 2], [3, 4], [5]] from by
        simp [splitParts]]
      decide)
  ⟨h.1, h.2.1 1 (by simp [splitParts]), h.2.2.1⟩

/-! ## The remaining facade operations -/

/-- `ListBuckets` (src/unnamed/part_000, lines 29-39): on a call error
the bucket slice stays nil and the error is returned; on success the
provider's bucket names are returned. -/
def ListBuckets (service : s3Service) (state : S3State)
    (callErr : Option S3Error) :
    s3Service × List String × Option S3Error :=
  match callErr with
  | some e => (service, [], some e)
  | none => (service, state.buckets.map Prod.fst, none)

/-- `CreateBucket` (src/unnamed/part_000, lines 68-81): issues the
provider call (its outcome is `callErr`) and returns its error; on
success the provider state gains an empty bucket. -/
def CreateBucket (service : s3Service) (state : S3State)
    (name : String) (_region : String) (callErr : Option S3Error) :
    s3Service × S3State × Option S3Error :=
  match callErr with
  | some e => (service, state, some e)
  | none => (service, { buckets := state.buckets ++ [(name, [])] }, none)

/-- `UploadFile` (src/unnamed/part_000, lines 84-101): `os.Open` first
(`openErr`), then `PutObject` with the file's bytes (`putErr`); either
error is returned, and only a fully successful call stores the
object. -/
def UploadFile (service : s3Service) (state : S3State)
    (bucketName : String) (objectKey : Key) (fileData : ObjectData)
    (openErr putErr : Option S3Error) :
    s3Service × S3State × Option S3Error :=
  match openErr with
  | some e => (service, state, some e)
  | none =>
    match putErr with
    | some e => (service, state, some e)
    | none =>
        (service, state.putObject bucketName objectKey fileData, none)

/-- The `CopyObjectInput` the facade hands to the provider: destination
bucket, copy source string and destination key. -/
structure CopyObjectInput where
  bucket : String
  copySource : String
  key : String
deriving DecidableEq, Repr

/-- The input `CopyToFolder` builds (src/unnamed/part_000, lines
169-180): `Bucket` is the given bucket, `CopySource` is
`fmt.Sprintf("%v/%v", bucketName, objectKey)` and `Key` is
`fmt.Sprintf("%v/%v", folderName, objectKey)`. -/
def copyToFolderInput (bucketName : String) (objectKey : Key)
    (folderName : String) : CopyObjectInput :=
  { bucket := bucketName
    copySource := bucketName ++ "/" ++ objectKey
    key := folderName ++ "/" ++ objectKey }

/-- `CopyToFolder` (src/unnamed/part_000, lines 169-180): builds the
copy input and issues the provider's server-side copy, modelled from
the spec: the object at the source key of the input's bucket is stored
under the input's destination key in the input's bucket; a missing
source fails with `NotFound`; `callErr` injects a transport-level
failure. -/
def CopyToFolder (service : s3Service) (state : S3State)
    (bucketName : String) (objectKey : Key) (folderName : String)
    (callErr : Option S3Error) :
    s3Service × S3State × CopyObjectInput × Option S3Error :=
  let input := copyToFolderInput bucketName objectKey folderName
  match callErr with
  | some e => (service, state, input, some e)
  | none =>
    match state.getObject input.bucket objectKey with
    | none => (service, state, input, some S3Error.notFound)
    | some data =>
        (service, state.putObject input.bucket input.key data, input, none)

/-- `DeleteObjects` (src/unnamed/part_000, lines 197-210): a batch
delete of the given keys from the bucket; on success the provider drops
every listed key from the bucket. -/
def DeleteObjects (service : s3Service) (state : S3State)
    (bucketName : String) (objectKeys : List Key)
    (callErr : Option S3Error) :
    s3Service × S3State × Option S3Error :=
  match callErr with
  | some e => (service, state, some e)
  | none =>
      (service,
        { buckets := state.buckets.map fun p =>
            if p.1 = bucketName then
              (p.1, p.2.filter fun q => ¬ q.1 ∈ objectKeys)
            else p },
        none)

/-- Remove a bucket from the provider state. -/
def S3State.removeBucket (s : S3State) (b : String) : S3State :=
  { buckets := s.buckets.filter fun p => ¬ p.1 = b }

/-- `DeleteBucket` (src/unnamed/part_000, lines 213-220) forwards to the
provider's bucket deletion, modelled from the spec: a missing bucket is
`NotFound`, a non-empty bucket fails with `bucketNotEmpty` and changes
nothing, and only an existing empty bucket is removed. -/
def DeleteBucket (service : s3Service) (state : S3State) (bucketName : String) :
    s3Service × S3State × Option S3Error :=
  match state.findBucket bucketName with
  | none => (service, state, some S3Error.notFound)
  | some objs =>
      if objs.isEmpty then (service, state.removeBucket bucketName, none)
      else (service, state, some S3Error.bucketNotEmpty)

/-- **C6**: deleting a non-empty bucket fails with the specific
`bucketNotEmpty` error and returns the state unchanged — the bucket and
every object in it are exactly as before. -/
theorem deleteBucket_nonempty_fails_untouched (service : s3Service)
    (state : S3State) (bucketName : String)
    (objs : List (Key × ObjectData))
    (hfind : state.findBucket bucketName = some objs) (hne : objs ≠ []) :
    DeleteBucket service state bucketName =
      (service, state, some S3Error.bucketNotEmpty) ∧
      (DeleteBucket service state bucketName).2.1.findBucket bucketName =
        some objs := by
  have hempty : objs.isEmpty = false := by
    cases objs with
    | nil => exact absurd rfl hne
    | cons a rest => rfl
  refine ⟨?_, ?_⟩ <;> simp [DeleteBucket, hfind, hempty]

/-- Witness for C6: a bucket holding one object survives its failed
deletion untouched, with the `bucketNotEmpty` error returned. -/
theorem deleteBucket_nonempty_fails_untouched_witness :
    DeleteBucket ⟨0⟩ ⟨[("bkt", [("key", [1])])]⟩ "bkt" =
      (⟨0⟩, ⟨[("bkt", [("key", [1])])]⟩, some S3Error.bucketNotEmpty) :=
  (deleteBucket_nonempty_fails_untouched ⟨0⟩ ⟨[("bkt", [("key", [1])])]⟩
    "bkt" [("key", [1])] (by decide) (by decide)).1

/-- **C10**: the copy input is built from the one bucket name: the copy
source is the string `bucketName ++ "/" ++ objectKey`, the destination
key is `folderName ++ "/" ++ objectKey`, and the destination bucket is
`bucketName` itself; consequently the provider-state of every bucket
other than `bucketName` is untouched by `CopyToFolder`, whatever the
call's outcome — no cross-bucket copy can happen. -/
theorem copyToFolder_same_bucket (bucketName : String) (objectKey : Key)
    (folderName : String) :
    (copyToFolderInput bucketName objectKey folderName).bucket =
        bucketName ∧
      (copyToFolderInput bucketName objectKey folderName).copySource =
        bucketName ++ "/" ++ objectKey ∧
      (copyToFolderInput bucketName objectKey folderName).key =
        folderName ++ "/" ++ objectKey ∧
      ∀ (service : s3Service) (state : S3State) (callErr : Option S3Error)
        (b' : String), b' ≠ bucketName →
        (CopyToFolder service state bucketName objectKey folderName
            callErr).2.1.findBucket b' = state.findBucket b' := by
  refine ⟨rfl, rfl, rfl, ?_⟩
  intro service state callErr b' hb'
  cases callErr with
  | some e => rfl
  | none =>
      rw [CopyToFolder]
      cases hobj : state.getObject (copyToFolderInput bucketName objectKey
          folderName).bucket objectKey with
      | none => simp [hobj]
      | some data =>
          simp only [hobj]
          exact findBucket_putObject_other state bucketName b' _ data hb'

/-- Witness for C10: with buckets `src` (holding the object) and
`other`, copying into a folder of `src` leaves `other` exactly as it
was. -/
theorem copyToFolder_same_bucket_witness :
    (CopyToFolder ⟨0⟩ ⟨[("src", [("k", [1])]), ("other", [])]⟩ "src" "k"
        "folder" none).2.1.findBucket "other" =
      S3State.findBucket ⟨[("src", [("k", [1])]), ("other", [])]⟩ "other" :=
  (copyToFolder_same_bucket "src" "k" "folder").2.2.2 ⟨0⟩
    ⟨[("src", [("k", [1])]), ("other", [])]⟩ none "other" (by decide)

/-- **C8**: no facade operation writes the facade's single client
binding: each of the eleven operations returns the `s3Service` value it
was called with, for all arguments and provider states — the binding
installed by `NewClient` is read-only afterwards. -/
theorem facade_binding_readonly (service : s3Service) (state : S3State)
    (callErr openErr putErr getErr writeErr : Option S3Error)
    (probe : Option S3Error) (name region : String) (key : Key)
    (fileData body src : ObjectData) (failAfter failAt : Option Nat)
    (partSize pageSize : Nat) (objects : List Key)
    (objectKeys : List Key) (folderName : String) :
    (ListBuckets service state callErr).1 = service ∧
      (BucketExists service probe).1 = service ∧
      (CreateBucket service state name region callErr).1 = service ∧
      (UploadFile service state name key fileData openErr putErr).1 =
        service ∧
      (UploadLargeObject service state name key partSize src failAt).1 =
        service ∧
      (DownloadFile service getErr body failAfter callErr writeErr).1 =
        service ∧
      (DownloadLargeObject service state name key partSize).1 = service ∧
      (CopyToFolder service state name key folderName callErr).1 =
        service ∧
      (ListObjects service objects pageSize).1 = service ∧
      (DeleteObjects service state name objectKeys callErr).1 = service ∧
      (DeleteBucket service state name).1 = service := by
  refine ⟨?_, ?_, ?_, ?_, ?_, ?_, ?_, ?_, rfl, ?_, ?_⟩
  · cases callErr <;> rfl
  · cases probe with
    | none => rfl
    | some e => cases e <;> rfl
  · cases callErr <;> rfl
  · cases openErr with
    | some e => rfl
    | none => cases putErr <;> rfl
  · cases failAt with
    | none => rfl
    | some j =>
        rw [UploadLargeObject]
        by_cases hp : ((mkParts partSize src).any fun p =>
            p.partNumber = j) = true
        · simp [hp]
        · simp [hp]
  · cases getErr with
    | some e => rfl
    | none => cases callErr <;> rfl
  · rw [DownloadLargeObject]
    cases state.getObject name key <;> rfl
  · cases callErr with
    | some e => rfl
    | none =>
        rw [CopyToFolder]
        cases state.getObject (copyToFolderInput name key folderName).bucket
          key <;> rfl
  · cases callErr <;> rfl
  · rw [DeleteBucket]
    cases hb : state.findBucket name with
    | none => rfl
    | some objs => by_cases ho : objs.isEmpty <;> simp [ho]

end AwsSdkPlayground
